import Mathlib

/-!
A shallow embedding of the `expo-video-proxy` local HTTP proxy, covering:

* the URL codec of both platforms — path-embedding on iOS
  (`ios/Proxy/CMCDProxy.swift`: `createProxyUrl` / `unproxiedUrl`) and
  query-embedding with percent-encoding on Android
  (`android/.../proxy/CMCDProxy.kt`: `createProxyUrl` / `handleClient`);
* header merging for the upstream fetch (`fetchAndProxy` on both platforms);
* the HLS manifest rewriter (`rewriteHLSManifest`, `rewriteURIAttributes`,
  `resolveUrl`);
* redirect handling (`fetchAndProxy` on iOS, the OkHttp client configuration
  on Android);
* the response writers (`sendResponse`, `sendRedirectResponse`,
  `sendErrorResponse`);
* request dispatch (`processRequest` on iOS, `handleClient` on Android);
* proxy lifecycle state (`stop`, `port`, `isRunning`);
* the CMCD header formatter (`formatCmcdHeaders` in `src/CMCDProxy.ts`).

Strings of the source are modelled as lists of characters, so that splitting,
prefixing and percent-encoding are ordinary list operations.
-/

/-- Strings from the source are modelled as lists of characters. -/
abbrev Str := List Char

/-- Character list of a Lean string literal. -/
def lit (s : String) : Str := s.toList

/-- Decimal representation of a number (string interpolation in Swift,
`$currentPort` in Kotlin, template literal in TypeScript). -/
def natStr (p : Nat) : Str := (Nat.repr p).toList

/-- A string whose characters are all ASCII.  Absolute `http`/`https` URLs —
the supported targets of the proxy — use only ASCII characters, and the
byte-per-character modelling of the percent codec below is exact on them. -/
def asciiStr (s : Str) : Prop := ∀ c ∈ s, c.toNat < 128

instance (s : Str) : Decidable (asciiStr s) := by
  unfold asciiStr; infer_instance

/-! ### iOS URL codec (path-embedding mode, `ios/Proxy/CMCDProxy.swift`) -/

/-- iOS `proxyBaseUrl`: `"http://localhost:\(port)/"`. -/
def iosProxyBase (p : Nat) : Str := lit "http://localhost:" ++ natStr p ++ lit "/"

/-- iOS `createProxyUrl(for:)`: `nil` unless the proxy is running
(`guard port > 0`), otherwise `proxyBaseUrl + originalUrl.absoluteString`.
`URL(string:)` construction on a well-formed URL string is modelled as the
identity on the URL's text. -/
def iosCreateProxyUrl (p : Nat) (originalUrl : Str) : Option Str :=
  if 0 < p then some (iosProxyBase p ++ originalUrl) else none

/-- iOS `unproxiedUrl(_:)`: requires the `proxyBaseUrl` prefix and drops it. -/
def iosUnproxiedUrl (p : Nat) (url : Str) : Option Str :=
  if (iosProxyBase p).isPrefixOf url then some (url.drop (iosProxyBase p).length)
  else none

/-! ### Android URL codec (query-embedding mode, `proxy/CMCDProxy.kt`)

`java.net.URLEncoder.encode(s, "UTF-8")` keeps ASCII alphanumerics and
`.`, `-`, `*`, `_`, turns a space into `+`, and percent-encodes every other
byte as `%XX` with upper-case hex digits.  `java.net.URLDecoder.decode`
inverts this and throws on a malformed escape (modelled as `none`).  On the
ASCII strings in scope each character is exactly one byte. -/

/-- An ASCII letter or digit, by code point (97–122 lower, 65–90 upper,
48–57 digit). -/
def asciiAlphanum (c : Char) : Bool :=
  (97 ≤ c.toNat && c.toNat ≤ 122) || (65 ≤ c.toNat && c.toNat ≤ 90) ||
    (48 ≤ c.toNat && c.toNat ≤ 57)

/-- The characters `URLEncoder` leaves unencoded: letters, digits, and the
four marks `.`, `-`, `*`, `_`. -/
def urlEncSafe (c : Char) : Bool := asciiAlphanum c || (lit ".-*_").contains c

/-- Upper-case hexadecimal digit for a value below 16 (code 48 is `0`,
code 55 + n gives `A`–`F` for n = 10–15). -/
def hexDigit (n : Nat) : Char :=
  Char.ofNat (if n < 10 then 48 + n else 55 + n)

/-- Numeric value of a hexadecimal digit character, by code point. -/
def hexVal (c : Char) : Option Nat :=
  if 48 ≤ c.toNat ∧ c.toNat ≤ 57 then some (c.toNat - 48)
  else if 65 ≤ c.toNat ∧ c.toNat ≤ 70 then some (c.toNat - 55)
  else if 97 ≤ c.toNat ∧ c.toNat ≤ 102 then some (c.toNat - 87)
  else none

/-- `URLEncoder.encode` on a single (ASCII) character. -/
def urlEncodeChar (c : Char) : Str :=
  if urlEncSafe c then [c]
  else if c = ' ' then ['+']
  else ['%', hexDigit (c.toNat / 16), hexDigit (c.toNat % 16)]

/-- `URLEncoder.encode(s, "UTF-8")`. -/
def urlEncode (s : Str) : Str := (s.map urlEncodeChar).flatten

/-- `URLDecoder.decode(s, "UTF-8")`: `+` becomes a space, `%XX` becomes the
byte `XX`, every other character is kept; a `%` not followed by two hex
digits raises `IllegalArgumentException`, modelled as `none`. -/
def urlDecode : Str → Option Str
  | [] => some []
  | c :: rest =>
    if c = '+' then (urlDecode rest).map (' ' :: ·)
    else if c = '%' then
      match rest with
      | h :: l :: rest2 =>
        match hexVal h, hexVal l with
        | some a, some b => (urlDecode rest2).map (Char.ofNat (16 * a + b) :: ·)
        | _, _ => none
      | _ => none
    else (urlDecode rest).map (c :: ·)

/-- The path component of an Android proxy URL: `/proxy?url=<encoded>`. -/
def androidProxyPath (originalUrl : Str) : Str :=
  lit "/proxy?url=" ++ urlEncode originalUrl

/-- Android `createProxyUrl`: `null` when `_port.get() == 0`, otherwise
`"http://127.0.0.1:$currentPort/proxy?url=$encoded"`. -/
def androidCreateProxyUrl (p : Nat) (originalUrl : Str) : Option Str :=
  if p = 0 then none
  else some (lit "http://127.0.0.1:" ++ natStr p ++ androidProxyPath originalUrl)

/-- The target-extraction step of Android `handleClient`: the path must start
with `/proxy?url=`; `substringAfter("/proxy?url=")` of such a path is the
drop of the delimiter's length (the delimiter's first occurrence is at the
start), and the remainder is URL-decoded. -/
def androidDecodeProxyPath (path : Str) : Option Str :=
  if (lit "/proxy?url=").isPrefixOf path then
    urlDecode (path.drop (lit "/proxy?url=").length)
  else none

/-! ### TypeScript `createProxyUrl` (`src/CMCDProxy.ts`)

`encodeURIComponent` keeps ASCII alphanumerics and `-_.!~*'()` and
percent-encodes every other byte as `%XX` upper-case. -/

/-- The characters `encodeURIComponent` leaves unencoded: letters, digits,
and the marks of its reserved-free set. -/
def uriComponentSafe (c : Char) : Bool :=
  asciiAlphanum c || (lit "-_.!~*'()").contains c

/-- `encodeURIComponent` on a single (ASCII) character. -/
def encodeURIComponentChar (c : Char) : Str :=
  if uriComponentSafe c then [c]
  else ['%', hexDigit (c.toNat / 16), hexDigit (c.toNat % 16)]

/-- `encodeURIComponent(originalUrl)`. -/
def encodeURIComponent (s : Str) : Str := (s.map encodeURIComponentChar).flatten

/-- TypeScript `CMCDProxy.createProxyUrl`: `null` when `getPort()` is `0`,
otherwise a query-embedded proxy URL. -/
def tsCreateProxyUrl (p : Nat) (originalUrl : Str) : Option Str :=
  if p = 0 then none
  else some (lit "http://127.0.0.1:" ++ natStr p ++ lit "/proxy?url=" ++
    encodeURIComponent originalUrl)

/-! ### Header maps and the upstream header merge (`fetchAndProxy`) -/

/-- Header maps are association lists of name/value pairs. -/
abbrev Headers := List (Str × Str)

/-- Lower-casing of a string (`lowercased()` / `lowercase()` / `toLower`). -/
def lowerStr (s : Str) : Str := s.map Char.toLower

/-- Case-insensitive equality of HTTP header field names. -/
def keyEq (a b : Str) : Bool := lowerStr a == lowerStr b

/-- Swift `URLRequest.setValue(_:forHTTPHeaderField:)`: replaces any existing
value of the case-insensitively matched field, modelled as removing matching
entries and appending the new pair. -/
def hSetValue (hs : Headers) (k v : Str) : Headers :=
  hs.filter (fun p => !(keyEq p.1 k)) ++ [(k, v)]

/-- Applies `setValue` for every entry of a header map, in iteration order. -/
def hApplySet (hs : Headers) (m : Headers) : Headers :=
  m.foldl (fun acc p => hSetValue acc p.1 p.2) hs

/-- Header lookup as the HTTP stacks perform it: case-insensitive on the
field name, the value written last wins. -/
def hLookup (n : Str) : Headers → Option Str
  | [] => none
  | (k, v) :: rest =>
    match hLookup n rest with
    | some w => some w
    | none => if keyEq k n then some v else none

/-- Left-biased choice between optional values. -/
def oor (x y : Option Str) : Option Str :=
  match x with
  | some v => some v
  | none => y

/-- iOS `fetchAndProxy` (`ios/Proxy/CMCDProxy.swift`) request-header
construction: the forwarded request headers (already `Host`-stripped by
`processRequest`), then the static headers, then the dynamic-provider result,
each written with `setValue`. -/
def iosUpstreamHeaders (forwarded staticH dynamicH : Headers) : Headers :=
  hApplySet (hApplySet (hApplySet [] forwarded) staticH) dynamicH

/-- OkHttp `Request.Builder.addHeader`: appends a pair without replacing any
existing value of the same name. -/
def addHeader (hs : Headers) (k v : Str) : Headers := hs ++ [(k, v)]

/-- Applies `addHeader` for every entry of a header map, in iteration order. -/
def hApplyAdd (hs : Headers) (m : Headers) : Headers :=
  m.foldl (fun acc p => addHeader acc p.1 p.2) hs

/-- Android `fetchAndProxy` (`proxy/CMCDProxy.kt`) request-header
construction: the static headers then the dynamic-provider result, each via
`addHeader`; the inbound request's own headers are read only to drain the
socket and are never forwarded. -/
def androidUpstreamHeaders (staticH dynamicH : Headers) : Headers :=
  hApplyAdd (hApplyAdd [] staticH) dynamicH

/-! ### Request parsing and dispatch (`processRequest` / `handleClient`) -/

/-- Whitespace trimming (`trimmingCharacters(in: .whitespaces)` / `trim()`). -/
def trimStr (s : Str) : Str :=
  ((s.dropWhile Char.isWhitespace).reverse.dropWhile Char.isWhitespace).reverse

/-- One header line of the inbound request, as parsed by iOS
`processRequest`: the text before the first `:` is the trimmed name, the text
after it the trimmed value; a line without `:` is skipped. -/
def parseHeaderLine (line : Str) : Option (Str × Str) :=
  let key := line.takeWhile (fun c => c ≠ ':')
  if key.length = line.length then none
  else some (trimStr key, trimStr (line.drop (key.length + 1)))

/-- iOS `processRequest` header collection: lines up to the first blank line,
each parsed with `parseHeaderLine`, dropping any `Host` header
(`key.lowercased() != "host"`). -/
def iosParseHeaders (rest : List Str) : Headers :=
  ((rest.takeWhile (fun l => l ≠ [])).filterMap parseHeaderLine).filter
    (fun p => lowerStr p.1 ≠ lit "host")

/-- The outcome of handling one inbound request: an immediate response, or an
upstream fetch of the decoded target. -/
inductive ProxyAction where
  | respond (status : Nat) (body : Str)
  | fetch (url : Str) (forwarded : Headers)
deriving DecidableEq

/-- iOS `processRequest` (`ios/Proxy/CMCDProxy.swift`), after the CRLF split
of the raw request into `lines`: the request line is split on spaces, fewer
than two parts is a 400, a non-`GET` method is a 405, then the target is the
path with the leading `/` removed; `URL(string:)` failure (modelled for the
empty string) is a 400, otherwise the request proceeds to `fetchAndProxy`
with the parsed, `Host`-stripped headers. -/
def iosProcessRequest (lines : List Str) : ProxyAction :=
  match lines with
  | [] => .respond 400 (lit "Empty request")
  | requestLine :: rest =>
    match requestLine.splitOn ' ' with
    | method :: path :: _ =>
      if method = lit "GET" then
        let originalUrlString := path.drop 1
        if originalUrlString = [] then .respond 400 (lit "Invalid URL: ")
        else .fetch originalUrlString (iosParseHeaders rest)
      else .respond 405 (lit "Method not allowed")
    | _ => .respond 400 (lit "Invalid request line")

/-- Android `handleClient` (`proxy/CMCDProxy.kt`) up to the dispatch: the
request line is split on spaces (fewer than two parts: 400), a non-`GET`
method is a 405, a path without the `/proxy?url=` prefix is a 400, a failing
URL-decode of the remainder is a 400, and otherwise the decoded target goes
to `fetchAndProxy` (no request headers are forwarded). -/
def androidHandleClient (requestLine : Str) : ProxyAction :=
  match requestLine.splitOn ' ' with
  | method :: path :: _ =>
    if method = lit "GET" then
      if (lit "/proxy?url=").isPrefixOf path then
        match urlDecode (path.drop (lit "/proxy?url=").length) with
        | some originalUrl => .fetch originalUrl []
        | none => .respond 400 (lit "Invalid URL encoding")
      else .respond 400 (lit "Invalid proxy path")
    else .respond 405 (lit "Method Not Allowed")
  | _ => .respond 400 (lit "Bad Request")

/-! ### Listener lifecycle (`stop`, `port`, `isRunning`) -/

/-- The proxy's cross-connection state: the bound port (`0` when stopped),
the running flag (Android `isRunning` / presence of the iOS listener), the
identifiers of tracked live connections (`activeConnections`), and the
identifiers of connections on which `cancel()`/`close()` has been called. -/
structure ProxyState where
  port : Nat
  running : Bool
  activeConnections : List Nat
  closedConnections : List Nat
deriving DecidableEq

/-- `stop()` (iOS `ios/Proxy/CMCDProxy.swift`, Android `proxy/CMCDProxy.kt`):
cancels the listener and clears the running flag, zeroes the port, empties
the tracked connection set, and cancels every connection that was tracked
(the cancellations are recorded in `closedConnections`). -/
def stopProxy (s : ProxyState) : ProxyState :=
  { port := 0
    running := false
    activeConnections := []
    closedConnections := s.closedConnections ++ s.activeConnections }

/-- `isRunning` as the iOS manager reports it: `CMCDProxy.shared.port > 0`. -/
def iosIsRunning (s : ProxyState) : Bool := decide (0 < s.port)

/-- `isRunning` as Android reports it: the `isRunning` atomic flag. -/
def androidIsRunning (s : ProxyState) : Bool := s.running

/-! ### URL resolution and the HLS manifest rewriter -/

/-- The absolute-URL check performed by `resolveUrl` on both platforms:
starts with `http://` or `https://`. -/
def isHttpAbs (s : Str) : Bool :=
  (lit "http://").isPrefixOf s || (lit "https://").isPrefixOf s

/-- Splits an absolute `http(s)` URL into scheme marker, authority and path
(the path keeps its leading `/` and any query). -/
def splitAbsUrl (u : Str) : Option (Str × Str × Str) :=
  if (lit "http://").isPrefixOf u then
    some (lit "http://", (u.drop 7).takeWhile (fun c => c ≠ '/'),
      (u.drop 7).dropWhile (fun c => c ≠ '/'))
  else if (lit "https://").isPrefixOf u then
    some (lit "https://", (u.drop 8).takeWhile (fun c => c ≠ '/'),
      (u.drop 8).dropWhile (fun c => c ≠ '/'))
  else none

/-- Everything up to and including the last `/` of a path (empty when the
path contains no `/`). -/
def upToLastSlash (path : Str) : Str :=
  (path.reverse.dropWhile (fun c => c ≠ '/')).reverse

/-- `resolveUrl` (Android `proxy/CMCDProxy.kt`; the legacy iOS variant's
`resolveUrl(_:relativeTo:)` is the same): an absolute `http(s)` reference is
returned as is — this branch is explicit in the source; otherwise the
platform URL library resolves the reference against the base
(`java.net.URI.resolve` / `URL(string:relativeTo:)`), modelled from
RFC 3986 §5.2 for the reference shapes occurring in manifests: a reference
starting with `/` replaces the base's whole path, and any other reference
replaces the last segment of the base's path (it is attached after `/` when
the base path is empty).  Dot-segment normalisation and query-only or
fragment references are not modelled; a base that is not an absolute
`http(s)` URL makes resolution fail, which every caller treats as "leave the
original text unchanged". -/
def resolveUrl (urlString : Str) (base : Str) : Option Str :=
  if isHttpAbs urlString then some urlString
  else
    match splitAbsUrl base with
    | none => none
    | some (scheme, auth, path) =>
      match urlString with
      | '/' :: _ => some (scheme ++ auth ++ urlString)
      | _ =>
        if path = [] then some (scheme ++ auth ++ '/' :: urlString)
        else some (scheme ++ auth ++ upToLastSlash path ++ urlString)

/-- Substring containment (`contains` of Kotlin and Swift strings). -/
def strContains (hay needle : Str) : Bool :=
  hay.tails.any (fun t => needle.isPrefixOf t)

/-- The replacement text for one `URI="<value>"` match
(`rewriteURIAttributes` on both platforms, parametrised by the platform's
`createProxyUrl`): the quoted value is resolved against the manifest's fetch
URL and substituted by the proxied URL; when resolution or proxy-URL
creation fails the original match text is kept. -/
def rewriteURIMatch (create : Str → Option Str) (base inner : Str) : Str :=
  match resolveUrl inner base with
  | some resolved =>
    match create resolved with
    | some proxied => lit "URI=\"" ++ proxied ++ ['"']
    | none => lit "URI=\"" ++ inner ++ ['"']
  | none => lit "URI=\"" ++ inner ++ ['"']

/-- Left-to-right replacement of every match of the pattern `URI="([^"]*)"`
in a line (`Regex.replace` on Android, the `NSRegularExpression` match loop
of the legacy iOS variant — both produce the same result); text outside the
matches is preserved verbatim.  When `URI="` is not followed by a closing
quote the pattern cannot match there or anywhere later in the line, so the
remainder is kept as it is. -/
def rewriteURIAttrsFuel (create : Str → Option Str) (base : Str) : Nat → Str → Str
  | 0, s => s
  | _ + 1, [] => []
  | fuel + 1, c :: rest =>
    if (lit "URI=\"").isPrefixOf (c :: rest) then
      match (rest.drop 4).dropWhile (fun x => x ≠ '"') with
      | '"' :: tail =>
        rewriteURIMatch create base ((rest.drop 4).takeWhile (fun x => x ≠ '"')) ++
          rewriteURIAttrsFuel create base fuel tail
      | _ => c :: rest
    else c :: rewriteURIAttrsFuel create base fuel rest

/-- The scan itself, with enough fuel for the whole line.  Every recursive
step strictly shortens the remaining text (a replaced match consumes at
least the five characters of `URI="` plus the closing quote), so a fuel
equal to the line's length is never exhausted and the fuel-indexed scan
computes the same replacement the platform regex engines do. -/
def rewriteURIAttrs (create : Str → Option Str) (base : Str) (s : Str) : Str :=
  rewriteURIAttrsFuel create base s.length s

/-- The per-line step of `rewriteHLSManifest`: a line containing `URI="`
goes through the attribute rewriter; a non-comment, non-blank line is
resolved as a segment reference and replaced by its proxy URL when both
resolution and proxy-URL creation succeed; every other line — and any line
whose resolution fails — is kept as its original text. -/
def rewriteLine (create : Str → Option Str) (base line : Str) : Str :=
  if strContains line (lit "URI=\"") then rewriteURIAttrs create base line
  else if (lit "#").isPrefixOf line = false ∧ trimStr line ≠ [] then
    match resolveUrl (trimStr line) base with
    | some segmentUrl =>
      match create segmentUrl with
      | some proxyUrl => proxyUrl
      | none => line
    | none => line
  else line

/-- `rewriteHLSManifest(content, baseUrl)` (Android `proxy/CMCDProxy.kt`;
the legacy iOS variant is identical up to its proxy-URL encoder, abstracted
here as `create`): when the base URL does not parse, the body is returned
unchanged; otherwise the body is split on `\n` and each line is rewritten
and emitted followed by `\n` — `result.append(newLine).append("\n")` runs
for every split piece, the last one included. -/
def rewriteHLSManifestGen (create : Str → Option Str) (content baseUrl : Str) : Str :=
  match splitAbsUrl baseUrl with
  | none => content
  | some _ =>
    ((content.splitOn '\n').map (fun line => rewriteLine create baseUrl line ++ ['\n'])).flatten

/-- Android `rewriteHLSManifest`, with the Android query-mode encoder. -/
def androidRewriteHLSManifest (p : Nat) (content baseUrl : Str) : Str :=
  rewriteHLSManifestGen (androidCreateProxyUrl p) content baseUrl

/-! ### Upstream responses and the response writers -/

/-- An upstream HTTP response: status code, headers, and the body (bodies
are the UTF-8 text the rewriter works on). -/
structure UpstreamResponse where
  code : Nat
  headers : Headers
  body : Str
deriving DecidableEq

/-- A response written back to the client connection, in structured form:
the status-line code, the header lines in emission order, and the body that
follows the blank line. -/
structure ClientResponse where
  status : Nat
  headers : Headers
  body : Str
deriving DecidableEq

/-- The header filter shared by the response writers (`sendResponse` on
Android and in the legacy iOS variant): an upstream header is forwarded
unless its lower-cased name is `content-encoding`, `transfer-encoding` or
`content-length`. -/
def keepHeader (p : Str × Str) : Bool :=
  ¬ (lowerStr p.1 = lit "content-encoding" ∨ lowerStr p.1 = lit "transfer-encoding" ∨
    lowerStr p.1 = lit "content-length")

/-- Kotlin `MutableMap` indexed assignment on a `String`-keyed map: replaces
the value of an exactly equal key, otherwise appends the pair. -/
def kotlinMapPut (m : Headers) (k v : Str) : Headers :=
  if m.any (fun p => p.1 == k) then m.map (fun p => if p.1 == k then (k, v) else p)
  else m ++ [(k, v)]

/-- `resp.headers.toMap()`: collects the response's name/value pairs into a
map; a repeated name keeps its last occurrence. -/
def toMapLastWins (hs : Headers) : Headers :=
  hs.foldl (fun acc p => kotlinMapPut acc p.1 p.2) []

/-- Android `sendResponse` (`proxy/CMCDProxy.kt`): status line, then
`Access-Control-Allow-Origin: *`, then every given header whose lower-cased
name is none of `content-encoding`, `transfer-encoding`, `content-length`,
then a `Content-Length` recomputed from the final body. -/
def androidSendResponse (status : Nat) (headers : Headers) (body : Str) : ClientResponse :=
  { status
    headers := (lit "Access-Control-Allow-Origin", lit "*") ::
      (headers.filter keepHeader ++ [(lit "Content-Length", natStr body.length)])
    body := body }

/-- Android `sendErrorResponse`: a plain-text body with `Content-Type`,
`Content-Length` and `Access-Control-Allow-Origin` headers, in the order of
its template string. -/
def androidSendErrorResponse (status : Nat) (message : Str) : ClientResponse :=
  { status
    headers := [(lit "Content-Type", lit "text/plain"),
      (lit "Content-Length", natStr message.length),
      (lit "Access-Control-Allow-Origin", lit "*")]
    body := message }

/-- Case-insensitive substring test
(Kotlin `contains(other, ignoreCase = true)`). -/
def containsCI (hay needle : Str) : Bool := strContains (lowerStr hay) (lowerStr needle)

/-- The lower-cased path (query excluded) of the target URL, as Android
computes it: `URI(originalUrl).path.lowercase()`, falling back to the whole
URL lower-cased when parsing fails. -/
def androidUrlPathLower (url : Str) : Str :=
  match splitAbsUrl url with
  | some (_, _, path) => lowerStr (path.takeWhile (fun c => c ≠ '?'))
  | none => lowerStr url

/-- Android's manifest classification (`fetchAndProxy`): the upstream
`Content-Type` contains `mpegurl` or `x-mpegURL` case-insensitively, or the
target's path ends in `.m3u8`. -/
def androidIsManifest (contentType url : Str) : Bool :=
  containsCI contentType (lit "mpegurl") || containsCI contentType (lit "x-mpegURL") ||
    (lit ".m3u8").isSuffixOf (androidUrlPathLower url)

/-- Android `fetchAndProxy` response processing (after the OkHttp call):
read the `Content-Type` (case-insensitive lookup), classify, rewrite a
manifest body and force `Content-Type: application/vnd.apple.mpegurl` on it,
then emit through `sendResponse`. -/
def androidFetchResult (p : Nat) (originalUrl : Str) (resp : UpstreamResponse) : ClientResponse :=
  let contentType := (hLookup (lit "Content-Type") resp.headers).getD []
  let headersMap := toMapLastWins resp.headers
  if androidIsManifest contentType originalUrl then
    androidSendResponse resp.code
      (kotlinMapPut headersMap (lit "Content-Type") (lit "application/vnd.apple.mpegurl"))
      (androidRewriteHLSManifest p resp.body originalUrl)
  else androidSendResponse resp.code headersMap resp.body

/-- iOS `sendResponse` (path-mode `ios/Proxy/CMCDProxy.swift`): status line,
`Access-Control-Allow-Origin: *`, the upstream `Content-Type` when present —
no other upstream header is forwarded — and a recomputed `Content-Length`. -/
def iosSendResponse (status : Nat) (contentType : Option Str) (data : Str) : ClientResponse :=
  { status
    headers := (lit "Access-Control-Allow-Origin", lit "*") ::
      ((match contentType with
        | some ct => [(lit "Content-Type", ct)]
        | none => []) ++ [(lit "Content-Length", natStr data.length)])
    body := data }

/-- iOS `sendRedirectResponse`: status line, the proxied `Location`, and
`Content-Length: 0` with an empty body — and nothing else: this writer adds
no CORS header. -/
def iosSendRedirectResponse (status : Nat) (location : Str) : ClientResponse :=
  { status
    headers := [(lit "Location", location), (lit "Content-Length", natStr 0)]
    body := [] }

/-- iOS `sendErrorResponse`: `sendResponse` with a `text/plain` body. -/
def iosSendErrorResponse (status : Nat) (message : Str) : ClientResponse :=
  iosSendResponse status (some (lit "text/plain")) message

/-- The iOS redirect target resolution
`URL(string: location, relativeTo: originalUrl) ?? URL(string: location)`,
through the RFC 3986 resolution model. -/
def iosResolveRedirect (location originalUrl : Str) : Option Str :=
  resolveUrl location originalUrl

/-- iOS `fetchAndProxy` response processing (path mode): a 301/302/307/308
status whose `Location` resolves and re-encodes is answered with
`sendRedirectResponse` carrying the proxied `Location`; every other response
— including a redirect whose `Location` is missing or does not yield a proxy
URL — passes through `sendResponse` with the upstream `Content-Type` and
body. -/
def iosFetchResult (p : Nat) (originalUrl : Str) (resp : UpstreamResponse) : ClientResponse :=
  let passThrough :=
    iosSendResponse resp.code (hLookup (lit "Content-Type") resp.headers) resp.body
  if resp.code = 301 ∨ resp.code = 302 ∨ resp.code = 307 ∨ resp.code = 308 then
    match hLookup (lit "Location") resp.headers with
    | some location =>
      match iosResolveRedirect location originalUrl with
      | some redirectUrl =>
        match iosCreateProxyUrl p redirectUrl with
        | some proxied => iosSendRedirectResponse resp.code proxied
        | none => passThrough
      | none => passThrough
    | none => passThrough
  else passThrough

/-- Whether the transport used for the iOS upstream fetch follows redirects
by itself: `NoRedirectDelegate.willPerformHTTPRedirection` always completes
with `nil`, so it does not. -/
def iosFollowRedirects : Bool := false

/-- An OkHttp client configuration. -/
structure OkHttpConfig where
  followRedirects : Bool
  connectTimeoutSeconds : Nat
  readTimeoutSeconds : Nat
deriving DecidableEq

/-- Android `httpClient` (`proxy/CMCDProxy.kt` lines 33–37):
`followRedirects(true)` and 30-second connect and read timeouts. -/
def androidHttpClient : OkHttpConfig :=
  { followRedirects := true, connectTimeoutSeconds := 30, readTimeoutSeconds := 30 }

/-! ### The legacy iOS query-mode variant (`src/unnamed/part_001`) -/

/-- The characters of Foundation's `.urlQueryAllowed` set, used by the
legacy iOS `createProxyUrl` through
`addingPercentEncoding(withAllowedCharacters:)`: ASCII alphanumerics and
`!$&'()*+,-./:;=?@_~`. -/
def urlQueryAllowedSafe (c : Char) : Bool :=
  asciiAlphanum c || (lit "!$&'()*+,-./:;=?@_~").contains c

/-- `addingPercentEncoding(withAllowedCharacters: .urlQueryAllowed)` on an
ASCII string. -/
def percentEncodeQuery (s : Str) : Str :=
  (s.map (fun c => if urlQueryAllowedSafe c then [c]
    else ['%', hexDigit (c.toNat / 16), hexDigit (c.toNat % 16)])).flatten

/-- Legacy iOS `createProxyUrl(for:)` (query-embedding variant): `nil`
unless running, otherwise `http://127.0.0.1:PORT/proxy?url=` plus the
percent-encoded target. -/
def part001CreateProxyUrl (p : Nat) (u : Str) : Option Str :=
  if 0 < p then
    some (lit "http://127.0.0.1:" ++ natStr p ++ lit "/proxy?url=" ++ percentEncodeQuery u)
  else none

/-- Foundation `pathExtension` of a URL: the extension of the last path
component, query excluded; empty when that component has no dot or the URL
has no parseable path. -/
def pathExtension (url : Str) : Str :=
  match splitAbsUrl url with
  | some (_, _, path) =>
    let comp := ((path.takeWhile (fun c => c ≠ '?')).reverse.takeWhile (fun c => c ≠ '/')).reverse
    if comp.contains '.' then (comp.reverse.takeWhile (fun c => c ≠ '.')).reverse else []
  | none => []

/-- The legacy iOS variant's manifest classification: case-sensitive Swift
`contains` on the content type, or a path extension lower-casing to
`m3u8`. -/
def part001IsManifest (contentType url : Str) : Bool :=
  strContains contentType (lit "mpegurl") || strContains contentType (lit "x-mpegURL") ||
    lowerStr (pathExtension url) == lit "m3u8"

/-- The legacy iOS variant's `rewriteHLSManifest`, instantiated with its own
encoder. -/
def part001RewriteHLSManifest (p : Nat) (content baseUrl : Str) : Str :=
  rewriteHLSManifestGen (part001CreateProxyUrl p) content baseUrl

/-- The legacy iOS variant's `sendResponse`: CORS header, the given headers
minus `content-encoding`/`transfer-encoding`/`content-length`, and a
recomputed `Content-Length`.  Its `isManifest` parameter is accepted but
never read: no branch forces the manifest content type. -/
def part001SendResponse (status : Nat) (headers : Headers) (data : Str)
    (isManifest : Bool) : ClientResponse :=
  { status
    headers := (lit "Access-Control-Allow-Origin", lit "*") ::
      (headers.filter keepHeader ++ [(lit "Content-Length", natStr data.length)])
    body := data }

/-- The legacy iOS variant's `fetchAndProxy` response processing: classify,
rewrite a manifest body, and emit through `sendResponse` with the upstream
header dictionary. -/
def part001FetchResult (p : Nat) (originalUrl : Str) (resp : UpstreamResponse) : ClientResponse :=
  let contentType := (hLookup (lit "Content-Type") resp.headers).getD []
  let isManifest := part001IsManifest contentType originalUrl
  let responseData :=
    if isManifest then part001RewriteHLSManifest p resp.body originalUrl else resp.body
  part001SendResponse resp.code (toMapLastWins resp.headers) responseData isManifest

/-! ### The CMCD header formatter (`formatCmcdHeaders`, `src/CMCDProxy.ts`)

CMCD numeric values are modelled as integers: the formatter's
`Number.isInteger` branch is the one integers take, and the `toFixed(0)`
branch for non-integral doubles is outside the integer model (no claim
exercises it). -/

/-- Decimal representation of an integer (JS template interpolation). -/
def intStr (n : Int) : Str := (toString n).toList

/-- `formatValue` on a boolean field: the bare key when `true`, the empty
string when `false`. -/
def formatBoolValue (key : Str) (value : Bool) : Str := if value then key else []

/-- `formatValue` on a string field: token keys (`ot`, `sf`, `st`) are
unquoted, other strings are quoted. -/
def formatStringValue (key value : Str) : Str :=
  if key = lit "ot" ∨ key = lit "sf" ∨ key = lit "st" then key ++ lit "=" ++ value
  else key ++ lit "=\"" ++ value ++ lit "\""

/-- `formatValue` on an (integer) numeric field. -/
def formatNumberValue (key : Str) (value : Int) : Str := key ++ lit "=" ++ intStr value

/-- The CMCD data record (`CmcdData`), every field optional. -/
structure CmcdData where
  sid : Option Str := none
  cid : Option Str := none
  br : Option Int := none
  d : Option Int := none
  ot : Option Str := none
  tb : Option Int := none
  bl : Option Int := none
  dl : Option Int := none
  mtp : Option Int := none
  nor : Option Str := none
  nrr : Option Str := none
  su : Option Bool := none
  bs : Option Bool := none
  pr : Option Int := none
  sf : Option Str := none
  st : Option Str := none
  v : Option Int := none
  rtp : Option Int := none
deriving DecidableEq

/-- The `CMCD-Object` group parts (`br`, `d`, `ot`, `tb`), pushed for every
defined field in source order. -/
def objectParts (data : CmcdData) : List Str :=
  (data.br.map (formatNumberValue (lit "br"))).toList ++
  (data.d.map (formatNumberValue (lit "d"))).toList ++
  (data.ot.map (formatStringValue (lit "ot"))).toList ++
  (data.tb.map (formatNumberValue (lit "tb"))).toList

/-- The `CMCD-Request` group parts (`bl`, `dl`, `mtp`, `nor`, `nrr`, `su`). -/
def requestParts (data : CmcdData) : List Str :=
  (data.bl.map (formatNumberValue (lit "bl"))).toList ++
  (data.dl.map (formatNumberValue (lit "dl"))).toList ++
  (data.mtp.map (formatNumberValue (lit "mtp"))).toList ++
  (data.nor.map (formatStringValue (lit "nor"))).toList ++
  (data.nrr.map (formatStringValue (lit "nrr"))).toList ++
  (data.su.map (formatBoolValue (lit "su"))).toList

/-- The `CMCD-Session` group parts (`cid`, `pr`, `sf`, `sid`, `st`, `v`). -/
def sessionParts (data : CmcdData) : List Str :=
  (data.cid.map (formatStringValue (lit "cid"))).toList ++
  (data.pr.map (formatNumberValue (lit "pr"))).toList ++
  (data.sf.map (formatStringValue (lit "sf"))).toList ++
  (data.sid.map (formatStringValue (lit "sid"))).toList ++
  (data.st.map (formatStringValue (lit "st"))).toList ++
  (data.v.map (formatNumberValue (lit "v"))).toList

/-- The `CMCD-Status` group parts (`bs`, `rtp`). -/
def statusParts (data : CmcdData) : List Str :=
  (data.bs.map (formatBoolValue (lit "bs"))).toList ++
  (data.rtp.map (formatNumberValue (lit "rtp"))).toList

/-- `parts.filter(Boolean).join(',')`: empty strings are falsy and dropped
before joining with commas. -/
def groupValue (parts : List Str) : Str :=
  List.intercalate (lit ",") (parts.filter (fun s => !s.isEmpty))

/-- `formatCmcdHeaders(data)`: each of the four groups contributes its
header exactly when its parts list is non-empty (`parts.length > 0` —
checked before the falsy filter), with the joined value. -/
def formatCmcdHeaders (data : CmcdData) : List (Str × Str) :=
  (if 0 < (objectParts data).length then
    [(lit "CMCD-Object", groupValue (objectParts data))] else []) ++
  (if 0 < (requestParts data).length then
    [(lit "CMCD-Request", groupValue (requestParts data))] else []) ++
  (if 0 < (sessionParts data).length then
    [(lit "CMCD-Session", groupValue (sessionParts data))] else []) ++
  (if 0 < (statusParts data).length then
    [(lit "CMCD-Status", groupValue (statusParts data))] else [])

/-- Number of header entries whose name case-insensitively equals `name`. -/
def countHeader (name : Str) (hs : Headers) : Nat :=
  (hs.filter (fun p => keyEq p.1 name)).length

/-! ## Helper lemmas -/

theorem prefixOf_append (l₁ l₂ : List Char) : l₁.isPrefixOf (l₁ ++ l₂) = true := by
  induction l₁ with
  | nil => simp [List.isPrefixOf]
  | cons a t ih => simpa [List.isPrefixOf] using ih

theorem drop_length_append (l₁ l₂ : List Char) : (l₁ ++ l₂).drop l₁.length = l₂ :=
  List.drop_left l₁ l₂

theorem hexVal_hexDigit : ∀ x < 16, hexVal (hexDigit x) = some x := by decide

theorem urlDecode_cons_plain {c : Char} (tl : Str) (h1 : c ≠ '+') (h2 : c ≠ '%') :
    urlDecode (c :: tl) = (urlDecode tl).map (c :: ·) := by
  match tl with
  | [] => simp [urlDecode, h1, h2]
  | [x] => simp [urlDecode, h1, h2]
  | x :: y :: rest => simp [urlDecode, h1, h2]

theorem urlDecode_cons_plus (tl : Str) :
    urlDecode ('+' :: tl) = (urlDecode tl).map (' ' :: ·) := by
  match tl with
  | [] => simp [urlDecode]
  | [x] => simp [urlDecode]
  | x :: y :: rest => simp [urlDecode]

theorem urlDecode_cons_percent (d₁ d₂ : Char) (tl : Str) (a b : Nat)
    (h1 : hexVal d₁ = some a) (h2 : hexVal d₂ = some b) :
    urlDecode ('%' :: d₁ :: d₂ :: tl) = (urlDecode tl).map (Char.ofNat (16 * a + b) :: ·) := by
  simp [urlDecode, h1, h2]

theorem urlDecode_urlEncode (u : Str) (h : asciiStr u) : urlDecode (urlEncode u) = some u := by
  induction u with
  | nil => rfl
  | cons c tl ih =>
    have hc : c.toNat < 128 := h c (by simp)
    have htl : asciiStr tl := fun x hx => h x (by simp [hx])
    have henc : urlEncode (c :: tl) = urlEncodeChar c ++ urlEncode tl := by
      simp [urlEncode]
    rw [henc]
    by_cases hs : urlEncSafe c
    · have hplus : c ≠ '+' := by
        intro hcp; rw [hcp] at hs; exact absurd hs (by decide)
      have hperc : c ≠ '%' := by
        intro hcp; rw [hcp] at hs; exact absurd hs (by decide)
      have he : urlEncodeChar c = [c] := by rw [urlEncodeChar, if_pos hs]
      rw [he]
      show urlDecode (c :: urlEncode tl) = some (c :: tl)
      rw [urlDecode_cons_plain (urlEncode tl) hplus hperc, ih htl]
      rfl
    · by_cases hsp : c = ' '
      · subst hsp
        have he : urlEncodeChar ' ' = ['+'] := by decide
        rw [he]
        show urlDecode ('+' :: urlEncode tl) = some (' ' :: tl)
        rw [urlDecode_cons_plus (urlEncode tl), ih htl]
        rfl
      · have hdiv : c.toNat / 16 < 16 := by omega
        have hmod : c.toNat % 16 < 16 := Nat.mod_lt _ (by omega)
        have he : urlEncodeChar c = ['%', hexDigit (c.toNat / 16), hexDigit (c.toNat % 16)] := by
          rw [urlEncodeChar, if_neg hs, if_neg hsp]
        rw [he]
        show urlDecode ('%' :: hexDigit (c.toNat / 16) :: hexDigit (c.toNat % 16) :: urlEncode tl) =
          some (c :: tl)
        rw [urlDecode_cons_percent _ _ (urlEncode tl) _ _
          (hexVal_hexDigit _ hdiv) (hexVal_hexDigit _ hmod), ih htl]
        have hn : 16 * (c.toNat / 16) + c.toNat % 16 = c.toNat := by omega
        rw [hn, Char.ofNat_toNat]
        rfl

theorem hLookup_cons (n k v : Str) (l : Headers) :
    hLookup n ((k, v) :: l) =
      match hLookup n l with
      | some w => some w
      | none => if keyEq k n then some v else none := rfl

theorem hLookup_append (n : Str) (l₁ l₂ : Headers) :
    hLookup n (l₁ ++ l₂) = oor (hLookup n l₂) (hLookup n l₁) := by
  induction l₁ with
  | nil =>
    cases h : hLookup n l₂ <;> simp [hLookup, oor, h]
  | cons kv t ih =>
    obtain ⟨k, v⟩ := kv
    rw [List.cons_append, hLookup_cons, hLookup_cons, ih]
    cases h₂ : hLookup n l₂ <;> cases ht : hLookup n t <;> simp [oor]

theorem keyEq_trans_ne {a k n : Str} (hak : keyEq a k = true) (hkn : keyEq k n = false) :
    keyEq a n = false := by
  simp only [keyEq, beq_iff_eq] at *
  rw [hak]
  exact hkn

theorem hLookup_filter_ne (n k : Str) (hs : Headers) (hkn : keyEq k n = false) :
    hLookup n (hs.filter (fun p => !(keyEq p.1 k))) = hLookup n hs := by
  induction hs with
  | nil => rfl
  | cons kv t ih =>
    obtain ⟨a, b⟩ := kv
    by_cases hak : keyEq a k = true
    · have hfilter : List.filter (fun p => !(keyEq p.1 k)) ((a, b) :: t) =
          List.filter (fun p => !(keyEq p.1 k)) t := by
        simp [List.filter_cons, hak]
      rw [hfilter, ih, hLookup_cons]
      have han : keyEq a n = false := keyEq_trans_ne hak hkn
      cases ht : hLookup n t with
      | some w => rfl
      | none => simp [han]
    · have hak' : keyEq a k = false := by simpa using hak
      have hfilter : List.filter (fun p => !(keyEq p.1 k)) ((a, b) :: t) =
          (a, b) :: List.filter (fun p => !(keyEq p.1 k)) t := by
        simp [List.filter_cons, hak']
      rw [hfilter, hLookup_cons, hLookup_cons, ih]

theorem hLookup_setValue (n k v : Str) (hs : Headers) :
    hLookup n (hSetValue hs k v) = if keyEq k n then some v else hLookup n hs := by
  unfold hSetValue
  rw [hLookup_append]
  cases hkn : keyEq k n with
  | true =>
    have hone : hLookup n [(k, v)] = some v := by
      rw [hLookup_cons]
      simp [hLookup, hkn]
    rw [hone]
    simp [oor]
  | false =>
    have hone : hLookup n [(k, v)] = none := by
      rw [hLookup_cons]
      simp [hLookup, hkn]
    rw [hone, hLookup_filter_ne n k hs hkn]
    simp [oor]

theorem hLookup_applySet (n : Str) (m : Headers) :
    ∀ hs : Headers, hLookup n (hApplySet hs m) = oor (hLookup n m) (hLookup n hs) := by
  induction m with
  | nil =>
    intro hs
    simp only [hApplySet, List.foldl_nil, hLookup, oor]
  | cons kv t ih =>
    intro hs
    obtain ⟨k, v⟩ := kv
    have step : hApplySet hs ((k, v) :: t) = hApplySet (hSetValue hs k v) t := rfl
    rw [step, ih, hLookup_setValue, hLookup_cons]
    cases ht : hLookup n t with
    | some w => rfl
    | none =>
      cases hkn : keyEq k n with
      | true => simp [oor]
      | false => simp [oor]

theorem hApplyAdd_eq_append (m : Headers) :
    ∀ hs : Headers, hApplyAdd hs m = hs ++ m := by
  induction m with
  | nil => intro hs; simp [hApplyAdd]
  | cons kv t ih =>
    intro hs
    obtain ⟨k, v⟩ := kv
    have step : hApplyAdd hs ((k, v) :: t) = hApplyAdd (addHeader hs k v) t := rfl
    rw [step, ih, addHeader]
    simp

/-! ## Claim theorems -/

/-- **C2**: for every supported (ASCII) absolute target URL `u` and running
proxy (`0 < p`): on iOS, `unproxiedUrl (createProxyUrl u) = u`
(path-embedding); on Android, the URL-decoding `handleClient` performs on
the path produced by `createProxyUrl u` (query-embedding with
percent-encoding) yields `u` again. -/
theorem c2_codec_roundtrip (p : Nat) (u : Str) (hp : 0 < p) (hu : asciiStr u) :
    iosCreateProxyUrl p u = some (iosProxyBase p ++ u) ∧
    iosUnproxiedUrl p (iosProxyBase p ++ u) = some u ∧
    androidDecodeProxyPath (androidProxyPath u) = some u := by
  refine ⟨by simp [iosCreateProxyUrl, hp], ?_, ?_⟩
  · simp only [iosUnproxiedUrl, prefixOf_append, if_pos]
    rw [drop_length_append]
  · simp only [androidDecodeProxyPath, androidProxyPath, prefixOf_append, if_pos]
    rw [drop_length_append]
    exact urlDecode_urlEncode u hu

/-- Witness for **C2** at the spec's example URL and a concrete port. -/
theorem c2_codec_roundtrip_witness :
    0 < 8080 ∧ asciiStr (lit "https://cdn.example/media/index.m3u8") ∧
    (iosCreateProxyUrl 8080 (lit "https://cdn.example/media/index.m3u8") =
      some (iosProxyBase 8080 ++ lit "https://cdn.example/media/index.m3u8") ∧
    iosUnproxiedUrl 8080 (iosProxyBase 8080 ++ lit "https://cdn.example/media/index.m3u8") =
      some (lit "https://cdn.example/media/index.m3u8") ∧
    androidDecodeProxyPath (androidProxyPath (lit "https://cdn.example/media/index.m3u8")) =
      some (lit "https://cdn.example/media/index.m3u8")) :=
  ⟨by decide, by decide,
    c2_codec_roundtrip 8080 (lit "https://cdn.example/media/index.m3u8") (by decide) (by decide)⟩

/-- **C7**: a well-formed request line (at least two space-separated parts)
whose method is not `GET` is answered 405 on both platforms, and the
connection never reaches the upstream-fetch step. -/
theorem c7_non_get_405 (line : Str) (rest : List Str) (m : Str)
    (hm : (line.splitOn ' ').head? = some m)
    (hlen : 2 ≤ (line.splitOn ' ').length)
    (hng : m ≠ lit "GET") :
    iosProcessRequest (line :: rest) = .respond 405 (lit "Method not allowed") ∧
    androidHandleClient line = .respond 405 (lit "Method Not Allowed") ∧
    (∀ url fwd, iosProcessRequest (line :: rest) ≠ .fetch url fwd) ∧
    (∀ url fwd, androidHandleClient line ≠ .fetch url fwd) := by
  rcases hsplit : line.splitOn ' ' with _ | ⟨m0, t0⟩
  · rw [hsplit] at hm; exact absurd hm (by simp)
  · rcases t0 with _ | ⟨p0, t1⟩
    · rw [hsplit] at hlen; exact absurd hlen (by simp)
    · rw [hsplit] at hm
      have hm0 : m0 = m := by simpa using hm
      subst hm0
      have hios : iosProcessRequest (line :: rest) = .respond 405 (lit "Method not allowed") := by
        simp only [iosProcessRequest, hsplit, if_neg hng]
      have hand : androidHandleClient line = .respond 405 (lit "Method Not Allowed") := by
        simp only [androidHandleClient, hsplit, if_neg hng]
      exact ⟨hios, hand, fun url fwd => by simp [hios], fun url fwd => by simp [hand]⟩

/-- Witness for **C7**: `POST /proxy?url=x HTTP/1.1`. -/
theorem c7_non_get_405_witness :
    iosProcessRequest [lit "POST /proxy?url=x HTTP/1.1"] =
      .respond 405 (lit "Method not allowed") ∧
    androidHandleClient (lit "POST /proxy?url=x HTTP/1.1") =
      .respond 405 (lit "Method Not Allowed") :=
  have h := c7_non_get_405 (lit "POST /proxy?url=x HTTP/1.1") [] (lit "POST")
    (by decide) (by decide) (by decide)
  ⟨h.1, h.2.1⟩

/-- **C8**: after `stop()` the port is `0`, `isRunning` is false on both
platforms, the tracked connection set is empty and every previously tracked
connection has been closed; `stop` is idempotent. -/
theorem c8_stop_postconditions (s : ProxyState) :
    (stopProxy s).port = 0 ∧
    iosIsRunning (stopProxy s) = false ∧
    androidIsRunning (stopProxy s) = false ∧
    (stopProxy s).activeConnections = [] ∧
    (∀ c ∈ s.activeConnections, c ∈ (stopProxy s).closedConnections) ∧
    stopProxy (stopProxy s) = stopProxy s := by
  refine ⟨rfl, rfl, rfl, rfl, ?_, ?_⟩
  · intro c hc
    simp [stopProxy, hc]
  · simp [stopProxy]

/-- Witness for **C8** at a concrete state with one tracked connection. -/
theorem c8_stop_postconditions_witness :
    (stopProxy ⟨3, true, [5], []⟩).port = 0 ∧
    5 ∈ (stopProxy ⟨3, true, [5], []⟩).closedConnections :=
  ⟨(c8_stop_postconditions ⟨3, true, [5], []⟩).1,
    (c8_stop_postconditions ⟨3, true, [5], []⟩).2.2.2.2.1 5 (by decide)⟩

/-- **C9**: on every platform implementation of `createProxyUrl`
(iOS path mode, the legacy iOS query mode, Android, TypeScript), the result
is `null` exactly when the proxy is not running (`port = 0`); whenever the
proxy runs, every original URL yields a proxy URL. -/
theorem c9_null_iff_not_running (p : Nat) (u : Str) :
    (iosCreateProxyUrl p u = none ↔ p = 0) ∧
    (part001CreateProxyUrl p u = none ↔ p = 0) ∧
    (androidCreateProxyUrl p u = none ↔ p = 0) ∧
    (tsCreateProxyUrl p u = none ↔ p = 0) := by
  rcases Nat.eq_zero_or_pos p with hp | hp
  · subst hp
    simp [iosCreateProxyUrl, part001CreateProxyUrl, androidCreateProxyUrl, tsCreateProxyUrl]
  · constructor
    · simp [iosCreateProxyUrl, hp, Nat.pos_iff_ne_zero.mp hp]
    · constructor
      · simp [part001CreateProxyUrl, hp, Nat.pos_iff_ne_zero.mp hp]
      · constructor
        · simp [androidCreateProxyUrl, hp, Nat.pos_iff_ne_zero.mp hp]
        · simp [tsCreateProxyUrl, hp, Nat.pos_iff_ne_zero.mp hp]

/-- **C1 counterexample**: with static headers `{"A":"1"}` and dynamic
result `{"A":"2","B":"3"}` (and no forwarded headers — Android forwards
none), the Android upstream request carries `A: 1`, `A: 2`, `B: 3` — two
values for `A` — not the claimed exactly `A: 2` and `B: 3`. -/
theorem c1_counterexample :
    androidUpstreamHeaders [(lit "A", lit "1")] [(lit "A", lit "2"), (lit "B", lit "3")] =
      [(lit "A", lit "1"), (lit "A", lit "2"), (lit "B", lit "3")] ∧
    androidUpstreamHeaders [(lit "A", lit "1")] [(lit "A", lit "2"), (lit "B", lit "3")] ≠
      [(lit "A", lit "2"), (lit "B", lit "3")] := by
  constructor <;> decide

/-- **C1 amended**: on iOS the upstream headers are the later-wins merge of
forwarded (`Host`-stripped) request headers, then static headers, then the
dynamic-provider result, and in particular the spec's example yields exactly
`A: 2`, `B: 3`; on Android the forwarded headers are dropped entirely and
static and dynamic headers are appended with OkHttp `addHeader`, without any
replacement, so a name present in both maps is sent twice. -/
theorem c1_amended_header_merge :
    (∀ f s d n, hLookup n (iosUpstreamHeaders f s d) =
      oor (hLookup n d) (oor (hLookup n s) (hLookup n f))) ∧
    (∀ s d, androidUpstreamHeaders s d = s ++ d) ∧
    iosUpstreamHeaders [] [(lit "A", lit "1")] [(lit "A", lit "2"), (lit "B", lit "3")] =
      [(lit "A", lit "2"), (lit "B", lit "3")] := by
  refine ⟨?_, ?_, by decide⟩
  · intro f s d n
    unfold iosUpstreamHeaders
    rw [hLookup_applySet, hLookup_applySet, hLookup_applySet]
    cases hLookup n f <;> cases hLookup n s <;> cases hLookup n d <;> simp [oor, hLookup]
  · intro s d
    unfold androidUpstreamHeaders
    rw [hApplyAdd_eq_append, hApplyAdd_eq_append]
    simp

theorem countHeader_nil (name : Str) : countHeader name [] = 0 := rfl

theorem countHeader_cons (name k v : Str) (t : Headers) :
    countHeader name ((k, v) :: t) =
      (if keyEq k name then 1 else 0) + countHeader name t := by
  unfold countHeader
  rw [List.filter_cons]
  cases h : keyEq k name <;> simp [h] <;> omega

theorem countHeader_append (name : Str) (l₁ l₂ : Headers) :
    countHeader name (l₁ ++ l₂) = countHeader name l₁ + countHeader name l₂ := by
  unfold countHeader
  rw [List.filter_append, List.length_append]

theorem countHeader_filter_keep (name : Str)
    (hname : lowerStr name = lit "content-encoding" ∨ lowerStr name = lit "transfer-encoding" ∨
      lowerStr name = lit "content-length") (hs : Headers) :
    countHeader name (hs.filter keepHeader) = 0 := by
  induction hs with
  | nil => rfl
  | cons kv t ih =>
    rw [List.filter_cons]
    cases hk : keepHeader kv
    · simpa using ih
    · rw [if_pos rfl]
      obtain ⟨a, b⟩ := kv
      rw [countHeader_cons]
      have hne : keyEq a name = false := by
        cases hk2 : keyEq a name
        · rfl
        · exfalso
          have hlow : lowerStr a = lowerStr name := by
            have := hk2
            simp only [keyEq, beq_iff_eq] at this
            exact this
          have : ¬ (lowerStr a = lit "content-encoding" ∨
              lowerStr a = lit "transfer-encoding" ∨ lowerStr a = lit "content-length") := by
            have hkk := hk
            simp only [keepHeader, decide_eq_true_eq] at hkk
            exact hkk
          rw [hlow] at this
          exact this hname
      rw [hne]
      simpa using ih

theorem hLookup_content_length_tail (hs : Headers) (v : Str) :
    hLookup (lit "Content-Length")
      ((lit "Access-Control-Allow-Origin", lit "*") ::
        (hs.filter keepHeader ++ [(lit "Content-Length", v)])) = some v := by
  rw [hLookup_cons, hLookup_append]
  have hone : hLookup (lit "Content-Length") [(lit "Content-Length", v)] = some v := by
    rw [hLookup_cons]
    simp [hLookup, keyEq]
  rw [hone]
  simp [oor]

/-- **C5 counterexample**: the iOS redirect response — one of the responses
the proxy writes to a client — carries no `Access-Control-Allow-Origin`
header at all, against the claim that every written response carries it. -/
theorem c5_counterexample :
    ((iosSendRedirectResponse 302
        (lit "http://localhost:8080/https://cdn.example/v2/seg.ts")).headers.any
      (fun p => keyEq p.1 (lit "Access-Control-Allow-Origin"))) = false ∧
    (iosSendRedirectResponse 302
        (lit "http://localhost:8080/https://cdn.example/v2/seg.ts")).headers =
      [(lit "Location", lit "http://localhost:8080/https://cdn.example/v2/seg.ts"),
        (lit "Content-Length", lit "0")] := by
  constructor <;> decide

/-- **C5 amended**: every ordinary and error response the proxy writes (iOS
path-mode `sendResponse`/`sendErrorResponse`, Android
`sendResponse`/`sendErrorResponse`, the legacy variant's `sendResponse`)
carries `Access-Control-Allow-Origin: *`, no `Content-Encoding` or
`Transfer-Encoding` header, no upstream `Content-Length`, and exactly one
`Content-Length` equal to the length of the body actually written; the iOS
redirect response also carries exactly one `Content-Length` (`0`, matching
its empty body) and no hop-by-hop headers, but omits
`Access-Control-Allow-Origin`. -/
theorem c5_amended_response_writers :
    (∀ status headers body,
      (lit "Access-Control-Allow-Origin", lit "*") ∈
        (androidSendResponse status headers body).headers ∧
      countHeader (lit "Content-Encoding") (androidSendResponse status headers body).headers = 0 ∧
      countHeader (lit "Transfer-Encoding") (androidSendResponse status headers body).headers = 0 ∧
      countHeader (lit "Content-Length") (androidSendResponse status headers body).headers = 1 ∧
      hLookup (lit "Content-Length") (androidSendResponse status headers body).headers =
        some (natStr body.length) ∧
      (androidSendResponse status headers body).body = body) ∧
    (∀ status headers data im,
      (lit "Access-Control-Allow-Origin", lit "*") ∈
        (part001SendResponse status headers data im).headers ∧
      countHeader (lit "Content-Encoding") (part001SendResponse status headers data im).headers = 0 ∧
      countHeader (lit "Transfer-Encoding") (part001SendResponse status headers data im).headers = 0 ∧
      countHeader (lit "Content-Length") (part001SendResponse status headers data im).headers = 1 ∧
      hLookup (lit "Content-Length") (part001SendResponse status headers data im).headers =
        some (natStr data.length) ∧
      (part001SendResponse status headers data im).body = data) ∧
    (∀ status contentType data,
      (lit "Access-Control-Allow-Origin", lit "*") ∈
        (iosSendResponse status contentType data).headers ∧
      countHeader (lit "Content-Encoding") (iosSendResponse status contentType data).headers = 0 ∧
      countHeader (lit "Transfer-Encoding") (iosSendResponse status contentType data).headers = 0 ∧
      countHeader (lit "Content-Length") (iosSendResponse status contentType data).headers = 1 ∧
      hLookup (lit "Content-Length") (iosSendResponse status contentType data).headers =
        some (natStr data.length) ∧
      (iosSendResponse status contentType data).body = data) ∧
    (∀ status message,
      (lit "Access-Control-Allow-Origin", lit "*") ∈
        (androidSendErrorResponse status message).headers ∧
      countHeader (lit "Content-Encoding") (androidSendErrorResponse status message).headers = 0 ∧
      countHeader (lit "Transfer-Encoding") (androidSendErrorResponse status message).headers = 0 ∧
      countHeader (lit "Content-Length") (androidSendErrorResponse status message).headers = 1 ∧
      hLookup (lit "Content-Length") (androidSendErrorResponse status message).headers =
        some (natStr message.length) ∧
      (androidSendErrorResponse status message).body = message) ∧
    (∀ status location,
      countHeader (lit "Access-Control-Allow-Origin")
        (iosSendRedirectResponse status location).headers = 0 ∧
      countHeader (lit "Content-Encoding") (iosSendRedirectResponse status location).headers = 0 ∧
      countHeader (lit "Transfer-Encoding") (iosSendRedirectResponse status location).headers = 0 ∧
      countHeader (lit "Content-Length") (iosSendRedirectResponse status location).headers = 1 ∧
      hLookup (lit "Content-Length") (iosSendRedirectResponse status location).headers =
        some (natStr 0) ∧
      (iosSendRedirectResponse status location).body = []) := by
  refine ⟨?_, ?_, ?_, ?_, ?_⟩
  · intro status headers body
    unfold androidSendResponse
    refine ⟨by simp, ?_, ?_, ?_, hLookup_content_length_tail headers (natStr body.length), rfl⟩
    · rw [countHeader_cons, countHeader_append, countHeader_filter_keep _ (by decide) headers,
        countHeader_cons, countHeader_nil]
      decide
    · rw [countHeader_cons, countHeader_append, countHeader_filter_keep _ (by decide) headers,
        countHeader_cons, countHeader_nil]
      decide
    · rw [countHeader_cons, countHeader_append, countHeader_filter_keep _ (by decide) headers,
        countHeader_cons, countHeader_nil]
      decide
  · intro status headers data im
    unfold part001SendResponse
    refine ⟨by simp, ?_, ?_, ?_, hLookup_content_length_tail headers (natStr data.length), rfl⟩
    · rw [countHeader_cons, countHeader_append, countHeader_filter_keep _ (by decide) headers,
        countHeader_cons, countHeader_nil]
      decide
    · rw [countHeader_cons, countHeader_append, countHeader_filter_keep _ (by decide) headers,
        countHeader_cons, countHeader_nil]
      decide
    · rw [countHeader_cons, countHeader_append, countHeader_filter_keep _ (by decide) headers,
        countHeader_cons, countHeader_nil]
      decide
  · intro status contentType data
    unfold iosSendResponse
    cases contentType with
    | none =>
      refine ⟨by simp, ?_, ?_, ?_, ?_, rfl⟩
      · rw [countHeader_cons]
        simp only [List.nil_append]
        rw [countHeader_cons, countHeader_nil]
        decide
      · rw [countHeader_cons]
        simp only [List.nil_append]
        rw [countHeader_cons, countHeader_nil]
        decide
      · rw [countHeader_cons]
        simp only [List.nil_append]
        rw [countHeader_cons, countHeader_nil]
        decide
      · have k1 : keyEq (lit "Access-Control-Allow-Origin") (lit "Content-Length") = false := by
          decide
        have k3 : keyEq (lit "Content-Length") (lit "Content-Length") = true := by decide
        simp only [List.nil_append]
        rw [hLookup_cons, hLookup_cons]
        simp [hLookup, k1, k3]
    | some ct =>
      refine ⟨by simp, ?_, ?_, ?_, ?_, rfl⟩
      · simp only [List.cons_append, List.nil_append]
        rw [countHeader_cons, countHeader_cons, countHeader_cons, countHeader_nil]
        decide
      · simp only [List.cons_append, List.nil_append]
        rw [countHeader_cons, countHeader_cons, countHeader_cons, countHeader_nil]
        decide
      · simp only [List.cons_append, List.nil_append]
        rw [countHeader_cons, countHeader_cons, countHeader_cons, countHeader_nil]
        decide
      · have k1 : keyEq (lit "Access-Control-Allow-Origin") (lit "Content-Length") = false := by
          decide
        have k2 : keyEq (lit "Content-Type") (lit "Content-Length") = false := by decide
        have k3 : keyEq (lit "Content-Length") (lit "Content-Length") = true := by decide
        simp only [List.cons_append, List.nil_append]
        rw [hLookup_cons, hLookup_cons, hLookup_cons]
        simp [hLookup, k1, k2, k3]
  · intro status message
    unfold androidSendErrorResponse
    refine ⟨by simp, ?_, ?_, ?_, ?_, rfl⟩
    · rw [countHeader_cons, countHeader_cons, countHeader_cons, countHeader_nil]
      decide
    · rw [countHeader_cons, countHeader_cons, countHeader_cons, countHeader_nil]
      decide
    · rw [countHeader_cons, countHeader_cons, countHeader_cons, countHeader_nil]
      decide
    · have k1 : keyEq (lit "Access-Control-Allow-Origin") (lit "Content-Length") = false := by
        decide
      have k2 : keyEq (lit "Content-Type") (lit "Content-Length") = false := by decide
      have k3 : keyEq (lit "Content-Length") (lit "Content-Length") = true := by decide
      rw [hLookup_cons, hLookup_cons, hLookup_cons]
      simp [hLookup, k1, k2, k3]
  · intro status location
    unfold iosSendRedirectResponse
    refine ⟨?_, ?_, ?_, ?_, ?_, rfl⟩
    · rw [countHeader_cons, countHeader_cons, countHeader_nil]
      decide
    · rw [countHeader_cons, countHeader_cons, countHeader_nil]
      decide
    · rw [countHeader_cons, countHeader_cons, countHeader_nil]
      decide
    · rw [countHeader_cons, countHeader_cons, countHeader_nil]
      decide
    · have k1 : keyEq (lit "Location") (lit "Content-Length") = false := by decide
      have k3 : keyEq (lit "Content-Length") (lit "Content-Length") = true := by decide
      rw [hLookup_cons, hLookup_cons]
      simp [hLookup, k1, k3]

/-- **C4 counterexample**: the transport used for the Android upstream fetch
is built with `followRedirects(true)` — redirect following is enabled, not
disabled, at the transport level. -/
theorem c4_counterexample :
    androidHttpClient.followRedirects = true ∧ androidHttpClient.followRedirects ≠ false := by
  constructor <;> decide

/-- **C4 amended**: on iOS the transport does not follow redirects
(`NoRedirectDelegate`), and a 301/302/307/308 upstream response with a
`Location` that resolves against the request's target is answered with the
same status code and a proxied `Location` whose decoded target is the
resolved value; a missing or unresolvable `Location` passes the response
through unmodified.  On Android the OkHttp transport is configured with
`followRedirects(true)`: redirects are followed by the transport itself and
the proxy performs no redirect translation. -/
theorem c4_amended_redirects :
    iosFollowRedirects = false ∧
    androidHttpClient.followRedirects = true ∧
    (∀ (p : Nat) (originalUrl : Str) (resp : UpstreamResponse) (location target : Str),
      0 < p →
      (resp.code = 301 ∨ resp.code = 302 ∨ resp.code = 307 ∨ resp.code = 308) →
      hLookup (lit "Location") resp.headers = some location →
      iosResolveRedirect location originalUrl = some target →
      iosFetchResult p originalUrl resp =
        iosSendRedirectResponse resp.code (iosProxyBase p ++ target) ∧
      iosUnproxiedUrl p (iosProxyBase p ++ target) = some target) ∧
    (∀ (p : Nat) (originalUrl : Str) (resp : UpstreamResponse),
      hLookup (lit "Location") resp.headers = none →
      iosFetchResult p originalUrl resp =
        iosSendResponse resp.code (hLookup (lit "Content-Type") resp.headers) resp.body) ∧
    (∀ (p : Nat) (originalUrl : Str) (resp : UpstreamResponse) (location : Str),
      hLookup (lit "Location") resp.headers = some location →
      iosResolveRedirect location originalUrl = none →
      iosFetchResult p originalUrl resp =
        iosSendResponse resp.code (hLookup (lit "Content-Type") resp.headers) resp.body) := by
  refine ⟨rfl, rfl, ?_, ?_, ?_⟩
  · intro p originalUrl resp location target hp hcode hloc hres
    constructor
    · unfold iosFetchResult
      rw [if_pos hcode, hloc]
      simp only []
      rw [hres]
      simp only []
      unfold iosCreateProxyUrl
      rw [if_pos hp]
    · unfold iosUnproxiedUrl
      rw [prefixOf_append]
      simp [drop_length_append]
  · intro p originalUrl resp hnone
    unfold iosFetchResult
    by_cases hcode : resp.code = 301 ∨ resp.code = 302 ∨ resp.code = 307 ∨ resp.code = 308
    · rw [if_pos hcode, hnone]
    · rw [if_neg hcode]
  · intro p originalUrl resp location hloc hres
    unfold iosFetchResult
    by_cases hcode : resp.code = 301 ∨ resp.code = 302 ∨ resp.code = 307 ∨ resp.code = 308
    · rw [if_pos hcode, hloc]
      simp only []
      rw [hres]
    · rw [if_neg hcode]

/-- Witness for **C4** at the spec's example: a 302 with
`Location: /v2/seg.ts` relative to `https://cdn.example/a/b.m3u8` becomes a
302 whose proxied `Location` decodes back to
`https://cdn.example/v2/seg.ts`. -/
theorem c4_amended_redirects_witness :
    0 < 8080 ∧
    hLookup (lit "Location")
      ({ code := 302, headers := [(lit "Location", lit "/v2/seg.ts")], body := [] } :
        UpstreamResponse).headers = some (lit "/v2/seg.ts") ∧
    iosResolveRedirect (lit "/v2/seg.ts") (lit "https://cdn.example/a/b.m3u8") =
      some (lit "https://cdn.example/v2/seg.ts") ∧
    iosFetchResult 8080 (lit "https://cdn.example/a/b.m3u8")
        { code := 302, headers := [(lit "Location", lit "/v2/seg.ts")], body := [] } =
      iosSendRedirectResponse 302 (iosProxyBase 8080 ++ lit "https://cdn.example/v2/seg.ts") ∧
    iosUnproxiedUrl 8080 (iosProxyBase 8080 ++ lit "https://cdn.example/v2/seg.ts") =
      some (lit "https://cdn.example/v2/seg.ts") := by
  have h := c4_amended_redirects.2.2.1 8080 (lit "https://cdn.example/a/b.m3u8")
    { code := 302, headers := [(lit "Location", lit "/v2/seg.ts")], body := [] }
    (lit "/v2/seg.ts") (lit "https://cdn.example/v2/seg.ts")
    (by decide) (by decide) (by decide) (by decide)
  exact ⟨by decide, by decide, by decide, h.1, h.2⟩

theorem mem_if_singleton {α : Type} (x : α) (c : Prop) [Decidable c] (y : α) :
    (x ∈ if c then [y] else []) ↔ c ∧ x = y := by
  split <;> simp_all

theorem objectParts_pos (data : CmcdData) :
    0 < (objectParts data).length ↔
      (data.br.isSome ∨ data.d.isSome ∨ data.ot.isSome ∨ data.tb.isSome) := by
  rcases data with ⟨sid, cid, br, d, ot, tb, bl, dl, mtp, nor, nrr, su, bs, pr, sf, st, v, rtp⟩
  cases br <;> cases d <;> cases ot <;> cases tb <;> simp [objectParts]

theorem requestParts_pos (data : CmcdData) :
    0 < (requestParts data).length ↔
      (data.bl.isSome ∨ data.dl.isSome ∨ data.mtp.isSome ∨ data.nor.isSome ∨
        data.nrr.isSome ∨ data.su.isSome) := by
  rcases data with ⟨sid, cid, br, d, ot, tb, bl, dl, mtp, nor, nrr, su, bs, pr, sf, st, v, rtp⟩
  cases bl <;> cases dl <;> cases mtp <;> cases nor <;> cases nrr <;> cases su <;>
    simp [requestParts]

theorem sessionParts_pos (data : CmcdData) :
    0 < (sessionParts data).length ↔
      (data.cid.isSome ∨ data.pr.isSome ∨ data.sf.isSome ∨ data.sid.isSome ∨
        data.st.isSome ∨ data.v.isSome) := by
  rcases data with ⟨sid, cid, br, d, ot, tb, bl, dl, mtp, nor, nrr, su, bs, pr, sf, st, v, rtp⟩
  cases cid <;> cases pr <;> cases sf <;> cases sid <;> cases st <;> cases v <;>
    simp [sessionParts]

theorem statusParts_pos (data : CmcdData) :
    0 < (statusParts data).length ↔ (data.bs.isSome ∨ data.rtp.isSome) := by
  rcases data with ⟨sid, cid, br, d, ot, tb, bl, dl, mtp, nor, nrr, su, bs, pr, sf, st, v, rtp⟩
  cases bs <;> cases rtp <;> simp [statusParts]

theorem mem_formatCmcd_object (data : CmcdData) :
    (∃ v, (lit "CMCD-Object", v) ∈ formatCmcdHeaders data) ↔
      0 < (objectParts data).length := by
  have ne1 : lit "CMCD-Object" ≠ lit "CMCD-Request" := by decide
  have ne2 : lit "CMCD-Object" ≠ lit "CMCD-Session" := by decide
  have ne3 : lit "CMCD-Object" ≠ lit "CMCD-Status" := by decide
  simp [formatCmcdHeaders, mem_if_singleton, Prod.mk.injEq, ne1, ne2, ne3]

theorem mem_formatCmcd_request (data : CmcdData) :
    (∃ v, (lit "CMCD-Request", v) ∈ formatCmcdHeaders data) ↔
      0 < (requestParts data).length := by
  have ne1 : lit "CMCD-Request" ≠ lit "CMCD-Object" := by decide
  have ne2 : lit "CMCD-Request" ≠ lit "CMCD-Session" := by decide
  have ne3 : lit "CMCD-Request" ≠ lit "CMCD-Status" := by decide
  simp [formatCmcdHeaders, mem_if_singleton, Prod.mk.injEq, ne1, ne2, ne3]

theorem mem_formatCmcd_session (data : CmcdData) :
    (∃ v, (lit "CMCD-Session", v) ∈ formatCmcdHeaders data) ↔
      0 < (sessionParts data).length := by
  have ne1 : lit "CMCD-Session" ≠ lit "CMCD-Object" := by decide
  have ne2 : lit "CMCD-Session" ≠ lit "CMCD-Request" := by decide
  have ne3 : lit "CMCD-Session" ≠ lit "CMCD-Status" := by decide
  simp [formatCmcdHeaders, mem_if_singleton, Prod.mk.injEq, ne1, ne2, ne3]

theorem mem_formatCmcd_status (data : CmcdData) :
    (∃ v, (lit "CMCD-Status", v) ∈ formatCmcdHeaders data) ↔
      0 < (statusParts data).length := by
  have ne1 : lit "CMCD-Status" ≠ lit "CMCD-Object" := by decide
  have ne2 : lit "CMCD-Status" ≠ lit "CMCD-Request" := by decide
  have ne3 : lit "CMCD-Status" ≠ lit "CMCD-Session" := by decide
  simp [formatCmcdHeaders, mem_if_singleton, Prod.mk.injEq, ne1, ne2, ne3]

/-- **C10**: a CMCD group's header is present in `formatCmcdHeaders`'s
output exactly when at least one of the group's fields is defined; in
particular an input whose only defined key is a boolean set to `false`
(`{su: false}`, `{bs: false}`) still yields that group's header
(`CMCD-Request` respectively `CMCD-Status`), with the empty string as its
value. -/
theorem c10_false_boolean_groups :
    (∀ data : CmcdData,
      ((∃ v, (lit "CMCD-Object", v) ∈ formatCmcdHeaders data) ↔
        (data.br.isSome ∨ data.d.isSome ∨ data.ot.isSome ∨ data.tb.isSome)) ∧
      ((∃ v, (lit "CMCD-Request", v) ∈ formatCmcdHeaders data) ↔
        (data.bl.isSome ∨ data.dl.isSome ∨ data.mtp.isSome ∨ data.nor.isSome ∨
          data.nrr.isSome ∨ data.su.isSome)) ∧
      ((∃ v, (lit "CMCD-Session", v) ∈ formatCmcdHeaders data) ↔
        (data.cid.isSome ∨ data.pr.isSome ∨ data.sf.isSome ∨ data.sid.isSome ∨
          data.st.isSome ∨ data.v.isSome)) ∧
      ((∃ v, (lit "CMCD-Status", v) ∈ formatCmcdHeaders data) ↔
        (data.bs.isSome ∨ data.rtp.isSome))) ∧
    formatCmcdHeaders { su := some false } = [(lit "CMCD-Request", [])] ∧
    formatCmcdHeaders { bs := some false } = [(lit "CMCD-Status", [])] := by
  refine ⟨?_, by decide, by decide⟩
  intro data
  exact ⟨(mem_formatCmcd_object data).trans (objectParts_pos data),
    (mem_formatCmcd_request data).trans (requestParts_pos data),
    (mem_formatCmcd_session data).trans (sessionParts_pos data),
    (mem_formatCmcd_status data).trans (statusParts_pos data)⟩

/-- **C3 counterexample**: a body consisting of the single comment line
`#EXTM3U` — which the rewriter leaves textually unchanged — comes out of
`rewriteHLSManifest` with an appended `\n`, so an unrewritten body is not
byte-identical to the input. -/
theorem c3_counterexample :
    androidRewriteHLSManifest 8080 (lit "#EXTM3U")
      (lit "https://cdn.example/media/index.m3u8") = lit "#EXTM3U\n" ∧
    androidRewriteHLSManifest 8080 (lit "#EXTM3U")
      (lit "https://cdn.example/media/index.m3u8") ≠ lit "#EXTM3U" := by
  constructor <;> decide

set_option maxRecDepth 8192 in
/-- **C3 amended**: the rewriter maps each non-blank, non-`#` line whose
trimmed text resolves against the fetch URL to a proxy URL whose decoded
target is the resolved value, rewrites only the quoted values of `URI="…"`
attributes in place, leaves comment and blank lines and lines that fail to
resolve textually unchanged — but joins the per-line results by appending
`\n` after every line, the last included, so the output always ends in a
newline and an unrewritten body is byte-identical to the input only up to
that appended terminator. -/
theorem c3_amended_rewriter :
    (∀ (create : Str → Option Str) (base line : Str),
      strContains line (lit "URI=\"") = false →
      ((lit "#").isPrefixOf line = true ∨ trimStr line = []) →
      rewriteLine create base line = line) ∧
    (∀ (create : Str → Option Str) (base line : Str),
      strContains line (lit "URI=\"") = false →
      resolveUrl (trimStr line) base = none →
      rewriteLine create base line = line) ∧
    (∀ (p : Nat) (base line t : Str), p ≠ 0 →
      strContains line (lit "URI=\"") = false →
      (lit "#").isPrefixOf line = false → trimStr line ≠ [] →
      resolveUrl (trimStr line) base = some t →
      rewriteLine (androidCreateProxyUrl p) base line =
        lit "http://127.0.0.1:" ++ natStr p ++ androidProxyPath t) ∧
    (∀ t : Str, asciiStr t → androidDecodeProxyPath (androidProxyPath t) = some t) ∧
    androidRewriteHLSManifest 8080 (lit "segment1.ts\nsegment2.ts\n")
        (lit "https://cdn.example/media/index.m3u8") =
      lit "http://127.0.0.1:8080/proxy?url=https%3A%2F%2Fcdn.example%2Fmedia%2Fsegment1.ts\nhttp://127.0.0.1:8080/proxy?url=https%3A%2F%2Fcdn.example%2Fmedia%2Fsegment2.ts\n\n" ∧
    androidDecodeProxyPath (lit "/proxy?url=https%3A%2F%2Fcdn.example%2Fmedia%2Fsegment1.ts") =
      some (lit "https://cdn.example/media/segment1.ts") ∧
    androidDecodeProxyPath (lit "/proxy?url=https%3A%2F%2Fcdn.example%2Fmedia%2Fsegment2.ts") =
      some (lit "https://cdn.example/media/segment2.ts") ∧
    rewriteURIAttrs (androidCreateProxyUrl 8080) (lit "https://cdn.example/media/index.m3u8")
        (lit "#EXT-X-KEY:METHOD=AES-128,URI=\"key.bin\",IV=0x1") =
      lit "#EXT-X-KEY:METHOD=AES-128,URI=\"http://127.0.0.1:8080/proxy?url=https%3A%2F%2Fcdn.example%2Fmedia%2Fkey.bin\",IV=0x1" := by
  refine ⟨?_, ?_, ?_, ?_, by decide, by decide, by decide, by decide⟩
  · intro create base line hc hOr
    unfold rewriteLine
    rw [hc]
    simp only [Bool.false_eq_true, if_false]
    have hnc : ¬ ((lit "#").isPrefixOf line = false ∧ trimStr line ≠ []) := by
      rcases hOr with h1 | h2
      · intro hcond
        rw [h1] at hcond
        exact absurd hcond.1 (by simp)
      · intro hcond
        exact hcond.2 h2
    rw [if_neg hnc]
  · intro create base line hc hres
    unfold rewriteLine
    rw [hc]
    simp only [Bool.false_eq_true, if_false]
    by_cases hcond : (lit "#").isPrefixOf line = false ∧ trimStr line ≠ []
    · rw [if_pos hcond, hres]
    · rw [if_neg hcond]
  · intro p base line t hp hc hpr htrim hres
    unfold rewriteLine
    rw [hc]
    simp only [Bool.false_eq_true, if_false]
    rw [if_pos ⟨hpr, htrim⟩, hres]
    simp only []
    unfold androidCreateProxyUrl
    rw [if_neg hp]
  · intro t ht
    unfold androidDecodeProxyPath androidProxyPath
    rw [prefixOf_append]
    simp only [if_pos]
    rw [drop_length_append]
    exact urlDecode_urlEncode t ht

/-- Witness for **C3** (amended): the comment line `#EXTM3U` is preserved,
and an ASCII segment target round-trips through the proxy path. -/
theorem c3_amended_rewriter_witness :
    strContains (lit "#EXTM3U") (lit "URI=\"") = false ∧
    rewriteLine (androidCreateProxyUrl 8080) (lit "https://cdn.example/media/index.m3u8")
      (lit "#EXTM3U") = lit "#EXTM3U" ∧
    androidDecodeProxyPath (androidProxyPath (lit "https://cdn.example/media/segment1.ts")) =
      some (lit "https://cdn.example/media/segment1.ts") :=
  ⟨by decide,
    c3_amended_rewriter.1 (androidCreateProxyUrl 8080)
      (lit "https://cdn.example/media/index.m3u8") (lit "#EXTM3U") (by decide)
      (Or.inl (by decide)),
    c3_amended_rewriter.2.2.2.1 (lit "https://cdn.example/media/segment1.ts") (by decide)⟩

/-- **C6** (code bug in the legacy iOS query-mode variant): a response
classified as a manifest and rewritten (target path ends in `.m3u8`,
upstream `Content-Type: application/octet-stream`) is sent with the
upstream's content type unchanged — `sendResponse` ignores its `isManifest`
parameter — while the Android implementation of the same pipeline forces
`Content-Type: application/vnd.apple.mpegurl` as the claim states. -/
theorem c6_content_type_not_forced_bug :
    part001IsManifest (lit "application/octet-stream")
      (lit "https://cdn.example/media/index.m3u8") = true ∧
    hLookup (lit "Content-Type")
      (part001FetchResult 8080 (lit "https://cdn.example/media/index.m3u8")
        { code := 200, headers := [(lit "Content-Type", lit "application/octet-stream")],
          body := [] }).headers = some (lit "application/octet-stream") ∧
    ((part001FetchResult 8080 (lit "https://cdn.example/media/index.m3u8")
        { code := 200, headers := [(lit "Content-Type", lit "application/octet-stream")],
          body := [] }).headers.any
      (fun p => p.2 == lit "application/vnd.apple.mpegurl")) = false ∧
    androidIsManifest (lit "application/octet-stream")
      (lit "https://cdn.example/media/index.m3u8") = true ∧
    hLookup (lit "Content-Type")
      (androidFetchResult 8080 (lit "https://cdn.example/media/index.m3u8")
        { code := 200, headers := [(lit "Content-Type", lit "application/octet-stream")],
          body := [] }).headers = some (lit "application/vnd.apple.mpegurl") := by
  refine ⟨by decide, by decide, by decide, by decide, by decide⟩
